import Mathlib

/-!
Verification of the `pinger` package of `potat-dev/networks-coursework-ping`
(`src/internal/pinger/pinger.go`, first file version, the one with UDP
support — line numbers below refer to it).

Modelling conventions:
* Go `int` / `int64` / `time.Duration` are modelled as `Int`.  The only
  arithmetic where int64 overflow can matter for the claims is the
  accumulation `total += result.RTT` in `PrintResults`; it is modelled with
  explicit 64-bit wrap-around (`wrap64`).
* Byte values are `Int` in `[0, 256)`; `byte(x)` is `x % 256` (Go's
  conversion keeps the low 8 bits; `Int.emod` is non-negative, matching the
  unsigned reading of those bits).  Likewise `uint16(x)` is `x % 65536` and
  `x & 0xffff` on a non-negative pid is `x % 65536`.
* The network and the OS are an explicit environment: for each sequence
  number the environment says whether `Marshal`, the send, and
  `SetReadDeadline` succeed, and what (if anything) arrives before the read
  deadline.  A read error and a deadline expiry are the same observable
  (`conn.ReadFrom` returns an error), so both are one environment outcome.
* Go functions returning `(T, error)` become `Except GoError T`; a runtime
  panic (negative `make` length, out-of-range slice) is the distinguished
  `GoError.panic` so that it is never confused with a returned error.
* `float64` appears only in the packet-loss percentage; it is modelled by
  exact rationals, with `none` standing for the IEEE `NaN` produced by the
  `0/0` division on an empty result list.
-/

/-- `PingConfig` (pinger.go lines 15-22). `Timeout` and `IntervalMS` are
`time.Duration`, i.e. nanosecond counts. -/
structure PingConfig where
  Host : String
  PacketSize : Int
  Count : Int
  Timeout : Int
  IntervalMS : Int
  UDPPort : Int
deriving DecidableEq

/-- `PingResult` (pinger.go lines 25-30).  Go zero values: a failed attempt
is appended as `PingResult{SequenceNumber: seq, Success: false}`, leaving
`RTT = 0` and `From = ""`. -/
structure PingResult where
  SequenceNumber : Int
  RTT : Int
  Success : Bool
  From : String
deriving DecidableEq

/-- Outcome of a Go call: a returned `error` value, or a runtime panic
(`make([]byte, n)` with `n < 0`, slice bounds).  Go's `Ping`/`PingUDP`
return `(nil, err)` on the error path, so an `Except.error` carries no
result list, exactly like the code. -/
inductive GoError where
  | msg (s : String)
  | panic (s : String)
deriving DecidableEq

/-- `NewPinger` defaults (pinger.go lines 38-46): packet size 64, count 4,
timeout `2 * time.Second` = 2000000000 ns, interval `1000 * time.Millisecond`
= 1000000000 ns, UDP port 33434. -/
def defaultPingConfig (host : String) : PingConfig :=
  { Host := host
    PacketSize := 64
    Count := 4
    Timeout := 2000000000
    IntervalMS := 1000000000
    UDPPort := 33434 }

/-- `NewPinger` (pinger.go lines 38-54): build the default config for `host`
and apply the option functions left to right. -/
def NewPinger (host : String) (options : List (PingConfig → PingConfig)) : PingConfig :=
  options.foldl (fun config option => option config) (defaultPingConfig host)

/-- `WithPacketSize` (pinger.go lines 57-61). -/
def WithPacketSize (size : Int) : PingConfig → PingConfig :=
  fun pc => { pc with PacketSize := size }

/-- `WithCount` (pinger.go lines 63-67). -/
def WithCount (count : Int) : PingConfig → PingConfig :=
  fun pc => { pc with Count := count }

/-- `WithTimeout` (pinger.go lines 69-73). -/
def WithTimeout (timeout : Int) : PingConfig → PingConfig :=
  fun pc => { pc with Timeout := timeout }

/-- `WithInterval` (pinger.go lines 75-79). -/
def WithInterval (intervalMS : Int) : PingConfig → PingConfig :=
  fun pc => { pc with IntervalMS := intervalMS }

/-- `WithUDPPort` (pinger.go lines 81-85). -/
def WithUDPPort (udpPort : Int) : PingConfig → PingConfig :=
  fun pc => { pc with UDPPort := udpPort }

/-- The sequence numbers visited by `for seq := 1; seq <= count; seq++`
(pinger.go line 104 / 205): `[1, 2, ..., count]`, empty when `count ≤ 0`. -/
def seqList (count : Int) : List Int :=
  (List.range count.toNat).map (fun (i : Nat) => (i : Int) + 1)

/-- A parsed ICMP message as far as the code inspects it: its type plus the
echo body's identifier and sequence number (`rm.Type`; the body fields exist
on the wire but lines 154-179 never read them). -/
structure IcmpReply where
  typ : Int
  id : Int
  seq : Int
deriving DecidableEq

/-- `ipv4.ICMPTypeEchoReply` is protocol value 0. -/
def ICMPTypeEchoReply : Int := 0

/-- `ipv4.ICMPTypeEcho` is protocol value 8. -/
def ICMPTypeEcho : Int := 8

/-- What `conn.ReadFrom` + `icmp.ParseMessage` yield for one attempt:
`failure` = read error or deadline expiry (line 145), `malformed` = read ok
but `ParseMessage` fails (line 154), `reply` = a parsed message. -/
inductive IcmpRecv where
  | failure
  | malformed
  | reply (r : IcmpReply)
deriving DecidableEq

/-- Environment of one ICMP attempt: success of `msg.Marshal` (line 122), of
`conn.WriteTo` (line 130), of `conn.SetReadDeadline` (line 140), what is
received, the elapsed time `time.Since(start)` observed at line 160, and
`from.String()`. -/
structure IcmpAttemptEnv where
  marshalOk : Bool
  sendOk : Bool
  deadlineOk : Bool
  recv : IcmpRecv
  rtt : Int
  src : String

/-- Environment of one `Ping` run: success of `net.ResolveIPAddr` (line 90)
and `icmp.ListenPacket` (line 96), the process id (`os.Getpid()`), and the
per-sequence-number attempt environments. -/
structure IcmpEnv where
  resolveOk : Bool
  listenOk : Bool
  pid : Int
  attempt : Int → IcmpAttemptEnv

/-- The echo data bytes (pinger.go lines 112, 117-119): `make([]byte, size)`
zero-filled, then every index set to `byte(seq)`. -/
def icmpData (size : Int) (seq : Int) : List Int :=
  (List.replicate size.toNat 0).map (fun _ => seq % 256)

/-- The `icmp.Echo` body built at lines 106-119: `ID = os.Getpid() & 0xffff`,
`Seq = seq`, and the filled data. -/
structure EchoMsg where
  id : Int
  seq : Int
  data : List Int
deriving DecidableEq

/-- Construction of the echo request (pinger.go lines 106-119). -/
def icmpEcho (pid : Int) (size : Int) (seq : Int) : EchoMsg :=
  { id := pid % 65536, seq := seq, data := icmpData size seq }

/-- One iteration of the `Ping` loop body (pinger.go lines 104-182).
`make([]byte, PacketSize)` panics when the size is negative (before
`Marshal` is reached); a `Marshal` error or a `SetReadDeadline` error is
returned as a top-level error (lines 122-125, 140-143), discarding all
results; a send error, read error/timeout, parse error, or a reply whose
type is not `ICMPTypeEchoReply` appends a failed result; a reply of type
`ICMPTypeEchoReply` appends a success with the observed RTT and source —
the reply's identifier and sequence fields are not compared (lines 160-179). -/
def icmpStep (pid : Int) (size : Int) (a : IcmpAttemptEnv) (seq : Int) :
    Except GoError PingResult :=
  if size < 0 then .error (.panic "makeslice: len out of range")
  else
    let _msg := icmpEcho pid size seq
    if !a.marshalOk then .error (.msg "marshal error")
    else if !a.sendOk then .ok { SequenceNumber := seq, RTT := 0, Success := false, From := "" }
    else if !a.deadlineOk then .error (.msg "set deadline error")
    else
      match a.recv with
      | .failure => .ok { SequenceNumber := seq, RTT := 0, Success := false, From := "" }
      | .malformed => .ok { SequenceNumber := seq, RTT := 0, Success := false, From := "" }
      | .reply r =>
          if r.typ = ICMPTypeEchoReply then
            .ok { SequenceNumber := seq, RTT := a.rtt, Success := true, From := a.src }
          else
            .ok { SequenceNumber := seq, RTT := 0, Success := false, From := "" }

/-- The `results` accumulation of the probe loops: process the sequence
numbers in order, appending each attempt's result; a fatal outcome returns
the error alone, discarding the list built so far (Go returns `(nil, err)`). -/
def pingLoop (f : Int → Except GoError PingResult) : List Int → Except GoError (List PingResult)
  | [] => .ok []
  | s :: rest =>
      match f s with
      | .error e => .error e
      | .ok r =>
          match pingLoop f rest with
          | .error e => .error e
          | .ok rs => .ok (r :: rs)

/-- `Ping` (pinger.go lines 88-186): resolve, open the ICMP transport, then
run the attempt loop over `seq = 1 .. Count`. -/
def Ping (cfg : PingConfig) (env : IcmpEnv) : Except GoError (List PingResult) :=
  if !env.resolveOk then .error (.msg "resolution error")
  else if !env.listenOk then .error (.msg "listen error")
  else pingLoop (fun s => icmpStep env.pid cfg.PacketSize (env.attempt s) s) (seqList cfg.Count)

/-- What `conn.ReadFromUDP` yields for one UDP attempt (pinger.go line 230):
`failure` = read error or deadline expiry; `datagram rpid rseq src` = a
datagram arrived, and decoding `buffer[0:2]` / `buffer[2:4]` big-endian
(lines 241-242) gives `rpid` and `rseq`.  The buffer is pre-zeroed and the
received length is ignored, so a short or empty datagram is
`datagram 0 0 src`. -/
inductive UdpRecv where
  | failure
  | datagram (rpid : Int) (rseq : Int) (src : String)
deriving DecidableEq

/-- Environment of one UDP attempt: success of `conn.Write` (line 214) and
`conn.SetReadDeadline` (line 224), what is received, and the elapsed time
`time.Since(start)` observed at line 240. -/
structure UdpAttemptEnv where
  sendOk : Bool
  deadlineOk : Bool
  recv : UdpRecv
  rtt : Int

/-- Environment of one `PingUDP` run: success of `net.ResolveUDPAddr`
(line 191) and `net.DialUDP` (line 197), the process id, and the
per-sequence-number attempt environments. -/
structure UdpEnv where
  resolveOk : Bool
  dialOk : Bool
  pid : Int
  attempt : Int → UdpAttemptEnv

/-- Big-endian bytes of `uint16(v)` as written by
`binary.BigEndian.PutUint16`. -/
def putUint16BE (v : Int) : List Int :=
  [(v % 65536) / 256, v % 256]

/-- The UDP probe datagram (pinger.go lines 207-210): `make([]byte, size)`
(panics for a negative size) then `PutUint16` into `data[0:2]` and
`data[2:4]` (panics when the slice is shorter than required, i.e. when
`size < 4`); on success the bytes are pid and sequence number big-endian
followed by zero padding. -/
def udpData (size : Int) (pid : Int) (seq : Int) : Except GoError (List Int) :=
  if size < 0 then .error (.panic "makeslice: len out of range")
  else if size < 4 then .error (.panic "slice bounds out of range")
  else .ok (putUint16BE pid ++ putUint16BE seq ++ List.replicate (size - 4).toNat 0)

/-- One iteration of the `PingUDP` loop body (pinger.go lines 205-260).
`pid := os.Getpid() & 0xffff`; building the datagram can panic (lines
208-210); a send error appends a failed result; a `SetReadDeadline` error is
a top-level error (lines 224-227); a read error/timeout appends a failed
result; a received datagram appends a success with the observed RTT and
source only when its first four bytes decode to `pid` and `seq`
(lines 239-256), otherwise a failed result. -/
def udpStep (envPid : Int) (size : Int) (a : UdpAttemptEnv) (seq : Int) :
    Except GoError PingResult :=
  let pid := envPid % 65536
  match udpData size pid seq with
  | .error e => .error e
  | .ok _data =>
      if !a.sendOk then .ok { SequenceNumber := seq, RTT := 0, Success := false, From := "" }
      else if !a.deadlineOk then .error (.msg "set UDP deadline error")
      else
        match a.recv with
        | .failure => .ok { SequenceNumber := seq, RTT := 0, Success := false, From := "" }
        | .datagram rpid rseq src =>
            if rpid = pid ∧ rseq = seq then
              .ok { SequenceNumber := seq, RTT := a.rtt, Success := true, From := src }
            else
              .ok { SequenceNumber := seq, RTT := 0, Success := false, From := "" }

/-- `PingUDP` (pinger.go lines 189-262): resolve `Host:UDPPort`, dial, then
run the attempt loop over `seq = 1 .. Count`. -/
def PingUDP (cfg : PingConfig) (env : UdpEnv) : Except GoError (List PingResult) :=
  if !env.resolveOk then .error (.msg "UDP resolution error")
  else if !env.dialOk then .error (.msg "UDP dial error")
  else pingLoop (fun s => udpStep env.pid cfg.PacketSize (env.attempt s) s) (seqList cfg.Count)

/-- Statistics accumulator of `PrintResults` (pinger.go lines 269-270):
`successCount`, `min`, `max`, `total`, all starting at their Go zero
values. -/
structure PingStats where
  successCount : Int
  min : Int
  max : Int
  total : Int
deriving DecidableEq

/-- Wrap-around of Go `int64` / `time.Duration` addition. -/
def wrap64 (x : Int) : Int :=
  (x + 2 ^ 63) % 2 ^ 64 - 2 ^ 63

/-- One iteration of the statistics loop of `PrintResults` (pinger.go lines
272-298), restricted to its state updates (the `fmt.Printf` calls do not
touch the state): a failed result changes nothing; a successful one bumps
`successCount`, updates `min` when `min == 0 || RTT < min`, updates `max`
when `max == 0 || RTT > max`, and adds the RTT to `total` (int64
wrap-around). -/
def statsStep (st : PingStats) (r : PingResult) : PingStats :=
  if r.Success then
    { successCount := st.successCount + 1
      min := if st.min = 0 ∨ r.RTT < st.min then r.RTT else st.min
      max := if st.max = 0 ∨ st.max < r.RTT then r.RTT else st.max
      total := wrap64 (st.total + r.RTT) }
  else st

/-- The statistics state after the whole loop of `PrintResults`. -/
def computeStats (results : List PingResult) : PingStats :=
  results.foldl statsStep { successCount := 0, min := 0, max := 0, total := 0 }

/-- `packetLoss` (pinger.go line 301):
`float64(len(results)-successCount) / float64(len(results)) * 100`.
The `float64` arithmetic is modelled by exact rationals; when
`len(results) = 0` the Go expression is the floating-point division `0/0`,
whose value is `NaN`, modelled as `none`. -/
def packetLoss (results : List PingResult) : Option ℚ :=
  if results.length = 0 then none
  else
    some ((((results.length : Int) - (computeStats results).successCount : Int) : ℚ)
      / ((results.length : Int) : ℚ) * 100)

/-- `avg` (pinger.go lines 302-305): `0` unless `successCount > 0`, in which
case `total / time.Duration(successCount)` — Go `int64` division truncates
toward zero, which is `Int.tdiv`. -/
def avgRTT (results : List PingResult) : Int :=
  let st := computeStats results
  if 0 < st.successCount then Int.tdiv st.total st.successCount else 0

/-- Whether `PrintResults` prints the `rtt min/avg/max` line (pinger.go
lines 311-313): only when `successCount > 0`. -/
def printsRttLine (results : List PingResult) : Bool :=
  decide (0 < (computeStats results).successCount)

/-- The RTTs of the successful attempts, in order — the values the spec's
min/avg/max talk about. -/
def succRTTs (results : List PingResult) : List Int :=
  (results.filter (fun r => r.Success)).map (fun r => r.RTT)

/-- Minimum of a list of integers, `0` for the empty list (spec-side helper
for stating what `min` ought to be). -/
def listMin : List Int → Int
  | [] => 0
  | x :: xs => xs.foldl min x

/-- Maximum of a list of integers, `0` for the empty list (spec-side helper
for stating what `max` ought to be). -/
def listMax : List Int → Int
  | [] => 0
  | x :: xs => xs.foldl max x

/-- An `ok` run of the loop relates the sequence list and the result list
pointwise: each result is the outcome of its attempt. -/
theorem pingLoop_ok_forall2 (f : Int → Except GoError PingResult) :
    ∀ (l : List Int) (res : List PingResult), pingLoop f l = .ok res →
      List.Forall₂ (fun s r => f s = .ok r) l res := by
  intro l
  induction l with
  | nil =>
      intro res h
      simp only [pingLoop, Except.ok.injEq] at h
      subst h
      exact List.Forall₂.nil
  | cons s rest ih =>
      intro res h
      simp only [pingLoop] at h
      cases hf : f s with
      | error e => rw [hf] at h; exact Except.noConfusion h
      | ok r =>
          rw [hf] at h
          cases hrest : pingLoop f rest with
          | error e => rw [hrest] at h; exact Except.noConfusion h
          | ok rs =>
              rw [hrest] at h
              simp only [Except.ok.injEq] at h
              subst h
              exact List.Forall₂.cons hf (ih rs hrest)

/-- If every attempt in the list yields a result (no fatal outcome), the
loop returns `ok`. -/
theorem pingLoop_ok_of_forall (f : Int → Except GoError PingResult) :
    ∀ l : List Int, (∀ s ∈ l, ∃ r, f s = .ok r) →
      ∃ res, pingLoop f l = .ok res := by
  intro l
  induction l with
  | nil => intro _; exact ⟨[], rfl⟩
  | cons s rest ih =>
      intro h
      obtain ⟨r, hr⟩ := h s (List.mem_cons_self s rest)
      obtain ⟨rs, hrs⟩ := ih (fun t ht => h t (List.mem_cons_of_mem s ht))
      exact ⟨r :: rs, by simp only [pingLoop, hr, hrs]⟩

/-- Pointwise relation to membership, right-hand side. -/
theorem forall2_mem_right {R : Int → PingResult → Prop} :
    ∀ {l : List Int} {res : List PingResult}, List.Forall₂ R l res →
      ∀ r ∈ res, ∃ s ∈ l, R s r := by
  intro l res h
  induction h with
  | nil => intro r hr; exact absurd hr (List.not_mem_nil r)
  | cons hR _ ih =>
      intro r hr
      rcases List.mem_cons.mp hr with h1 | h2
      · subst h1; exact ⟨_, List.mem_cons_self _ _, hR⟩
      · obtain ⟨s, hs, hRs⟩ := ih r h2
        exact ⟨s, List.mem_cons_of_mem _ hs, hRs⟩

/-- Pointwise relation to membership, left-hand side. -/
theorem forall2_mem_left {R : Int → PingResult → Prop} :
    ∀ {l : List Int} {res : List PingResult}, List.Forall₂ R l res →
      ∀ s ∈ l, ∃ r ∈ res, R s r := by
  intro l res h
  induction h with
  | nil => intro s hs; exact absurd hs (List.not_mem_nil s)
  | cons hR _ ih =>
      intro s hs
      rcases List.mem_cons.mp hs with h1 | h2
      · subst h1; exact ⟨_, List.mem_cons_self _ _, hR⟩
      · obtain ⟨r, hr, hRr⟩ := ih s h2
        exact ⟨r, List.mem_cons_of_mem _ hr, hRr⟩

/-- When each attempt stamps its own sequence number on its result, an `ok`
run returns results whose sequence numbers are exactly the input list, in
order. -/
theorem forall2_map_seq {l : List Int} {res : List PingResult}
    (h : List.Forall₂ (fun s r => r.SequenceNumber = s) l res) :
    res.map (fun r => r.SequenceNumber) = l := by
  induction h with
  | nil => rfl
  | cons hR _ ih => simp only [List.map_cons, hR, ih]

/-- `icmpStep` stamps the sequence number it was given. -/
theorem icmpStep_ok_seqNum {p sz : Int} {a : IcmpAttemptEnv} {s : Int} {r : PingResult}
    (h : icmpStep p sz a s = .ok r) : r.SequenceNumber = s := by
  simp only [icmpStep] at h
  repeat' split at h
  all_goals first
    | exact Except.noConfusion h
    | (injection h with h2; subst h2; rfl)

/-- `udpStep` stamps the sequence number it was given. -/
theorem udpStep_ok_seqNum {p sz : Int} {a : UdpAttemptEnv} {s : Int} {r : PingResult}
    (h : udpStep p sz a s = .ok r) : r.SequenceNumber = s := by
  simp only [udpStep] at h
  repeat' split at h
  all_goals first
    | exact Except.noConfusion h
    | (injection h with h2; subst h2; rfl)

/-- Characterization of success for one ICMP attempt: given that the attempt
produced a result at all, the result is a success exactly when the send and
the deadline-set succeeded and a message parsed whose ICMP type is
echo-reply — the reply's identifier and sequence fields play no role; on
success the RTT and source are the observed ones. -/
theorem icmpStep_ok_success {p sz : Int} {a : IcmpAttemptEnv} {s : Int} {r : PingResult}
    (h : icmpStep p sz a s = .ok r) :
    (r.Success = true ↔ a.sendOk = true ∧ a.deadlineOk = true ∧
      ∃ rep, a.recv = .reply rep ∧ rep.typ = ICMPTypeEchoReply) ∧
    (r.Success = true → r.RTT = a.rtt ∧ r.From = a.src) := by
  by_cases hsz : sz < 0
  · simp [icmpStep, hsz] at h
  · cases hm : a.marshalOk <;> cases hs : a.sendOk <;> cases hd : a.deadlineOk <;>
      cases hr : a.recv <;>
      simp only [icmpStep, hm, hs, hd, hr, hsz, Bool.not_true, Bool.not_false,
        if_true, if_false, ite_true, ite_false, if_neg, not_false_eq_true] at h
    all_goals try exact Except.noConfusion h
    all_goals try
      (injection h with h2; subst h2
       refine ⟨by simp [hs, hd, hr], by intro hfalse; exact Bool.noConfusion hfalse⟩)
    all_goals rename_i rep
    all_goals by_cases ht : rep.typ = ICMPTypeEchoReply
    all_goals simp only [ht, ite_true, ite_false, if_neg, not_false_eq_true] at h
    all_goals injection h with h2
    all_goals subst h2
    · exact ⟨by simp [hs, hd, hr, ht], fun _ => ⟨rfl, rfl⟩⟩
    · refine ⟨by simp [hs, hd, hr, ht], by intro hfalse; exact Bool.noConfusion hfalse⟩

/-- Characterization of success for one UDP attempt: given that the attempt
produced a result at all, the result is a success exactly when the send and
the deadline-set succeeded and a datagram arrived whose first four bytes
decode to the masked process id and the sequence number; on success the RTT
and source are the observed ones. -/
theorem udpStep_ok_success {p sz : Int} {a : UdpAttemptEnv} {s : Int} {r : PingResult}
    (h : udpStep p sz a s = .ok r) :
    (r.Success = true ↔ a.sendOk = true ∧ a.deadlineOk = true ∧
      ∃ src, a.recv = .datagram (p % 65536) s src) ∧
    (r.Success = true → r.RTT = a.rtt) := by
  simp only [udpStep, udpData] at h
  by_cases hsz0 : sz < 0
  · simp [hsz0] at h
  · by_cases hsz4 : sz < 4
    · simp [hsz0, hsz4] at h
    · cases hs : a.sendOk <;> cases hd : a.deadlineOk <;> cases hr : a.recv <;>
        simp only [hs, hd, hr, hsz0, hsz4, Bool.not_true, Bool.not_false,
          if_true, if_false, ite_true, ite_false, if_neg, not_false_eq_true] at h
      all_goals try exact Except.noConfusion h
      all_goals try
        (injection h with h2; subst h2
         refine ⟨by simp [hs, hd, hr], by intro hfalse; exact Bool.noConfusion hfalse⟩)
      all_goals rename_i rpid rseq src
      all_goals by_cases hmatch : rpid = p % 65536 ∧ rseq = s
      all_goals simp only [hmatch, ite_true, ite_false, if_pos, if_neg, not_false_eq_true] at h
      all_goals injection h with h2
      all_goals subst h2
      · refine ⟨?_, fun _ => rfl⟩
        simp only [hs, hd, hr, true_and]
        constructor
        · intro _; exact ⟨src, by rw [hmatch.1, hmatch.2]⟩
        · intro _; trivial
      · refine ⟨?_, by intro hfalse; exact Bool.noConfusion hfalse⟩
        simp only [hs, hd, hr, true_and]
        constructor
        · intro hfalse; exact Bool.noConfusion hfalse
        · rintro ⟨src2, hsrc⟩
          injection hsrc with e1 e2 e3
          exact absurd ⟨e1, e2⟩ hmatch

/-- The success counter of the statistics loop counts exactly the results
flagged successful — no hypotheses needed, the counter does not interact
with the min/max sentinels. -/
theorem foldl_statsStep_successCount :
    ∀ (l : List PingResult) (st : PingStats),
      (l.foldl statsStep st).successCount
        = st.successCount + ((l.filter (fun r => r.Success)).length : Int) := by
  intro l
  induction l with
  | nil => intro st; simp
  | cons r rest ih =>
      intro st
      cases hr : r.Success <;>
        simp only [List.foldl_cons, List.filter_cons, hr, statsStep, if_true, if_false,
          ite_true, ite_false, Bool.false_eq_true, List.length_cons, ih] <;>
        push_cast <;> ring

/-- 64-bit wrap-around is the identity inside the representable range. -/
theorem wrap64_eq_of_range {x : Int} (h0 : 0 ≤ x) (h1 : x < 2 ^ 63) : wrap64 x = x := by
  unfold wrap64
  rw [Int.emod_eq_of_lt (by omega) (by omega)]
  omega

theorem foldl_min_pull (ys : List Int) :
    ∀ a b : Int, ys.foldl min (min a b) = min a (ys.foldl min b) := by
  induction ys with
  | nil => intro a b; rfl
  | cons y ys ih =>
      intro a b
      simp only [List.foldl_cons, min_assoc, ih]

theorem foldl_max_pull (ys : List Int) :
    ∀ a b : Int, ys.foldl max (max a b) = max a (ys.foldl max b) := by
  induction ys with
  | nil => intro a b; rfl
  | cons y ys ih =>
      intro a b
      simp only [List.foldl_cons, max_assoc, ih]

theorem listMin_cons (x y : Int) (ys : List Int) :
    listMin (x :: y :: ys) = min x (listMin (y :: ys)) := by
  simp only [listMin, List.foldl_cons, foldl_min_pull]

theorem listMax_cons (x y : Int) (ys : List Int) :
    listMax (x :: y :: ys) = max x (listMax (y :: ys)) := by
  simp only [listMax, List.foldl_cons, foldl_max_pull]

theorem listMin_append_one (l : List Int) (hl : l ≠ []) (x : Int) :
    listMin (l ++ [x]) = min (listMin l) x := by
  induction l with
  | nil => exact absurd rfl hl
  | cons y ys ih =>
      cases ys with
      | nil => simp [listMin]
      | cons z zs =>
          have ih2 := ih (List.cons_ne_nil z zs)
          simp only [List.cons_append] at ih2 ⊢
          rw [listMin_cons, ih2, listMin_cons, min_assoc]

theorem listMax_append_one (l : List Int) (hl : l ≠ []) (x : Int) :
    listMax (l ++ [x]) = max (listMax l) x := by
  induction l with
  | nil => exact absurd rfl hl
  | cons y ys ih =>
      cases ys with
      | nil => simp [listMax]
      | cons z zs =>
          have ih2 := ih (List.cons_ne_nil z zs)
          simp only [List.cons_append] at ih2 ⊢
          rw [listMax_cons, ih2, listMax_cons, max_assoc]

theorem listMin_le_mem : ∀ {l : List Int} (x : Int), x ∈ l → listMin l ≤ x := by
  intro l
  induction l with
  | nil => intro x hx; exact absurd hx (List.not_mem_nil x)
  | cons y ys ih =>
      intro x hx
      cases ys with
      | nil =>
          rcases List.mem_cons.mp hx with h | h
          · subst h; exact le_refl x
          · exact absurd h (List.not_mem_nil x)
      | cons z zs =>
          rw [listMin_cons]
          rcases List.mem_cons.mp hx with h | h
          · subst h; exact min_le_left _ _
          · exact le_trans (min_le_right _ _) (ih x h)

theorem mem_le_listMax : ∀ {l : List Int} (x : Int), x ∈ l → x ≤ listMax l := by
  intro l
  induction l with
  | nil => intro x hx; exact absurd hx (List.not_mem_nil x)
  | cons y ys ih =>
      intro x hx
      cases ys with
      | nil =>
          rcases List.mem_cons.mp hx with h | h
          · subst h; exact le_refl x
          · exact absurd h (List.not_mem_nil x)
      | cons z zs =>
          rw [listMax_cons]
          rcases List.mem_cons.mp hx with h | h
          · subst h; exact le_max_left _ _
          · exact le_trans (ih x h) (le_max_right _ _)

theorem listMin_mem : ∀ {l : List Int}, l ≠ [] → listMin l ∈ l := by
  intro l
  induction l with
  | nil => intro h; exact absurd rfl h
  | cons y ys ih =>
      intro _
      cases ys with
      | nil => simp [listMin]
      | cons z zs =>
          rw [listMin_cons]
          rcases min_cases y (listMin (z :: zs)) with ⟨he, _⟩ | ⟨he, _⟩
          · rw [he]; exact List.mem_cons_self _ _
          · rw [he]; exact List.mem_cons_of_mem _ (ih (List.cons_ne_nil z zs))

theorem listMax_mem : ∀ {l : List Int}, l ≠ [] → listMax l ∈ l := by
  intro l
  induction l with
  | nil => intro h; exact absurd rfl h
  | cons y ys ih =>
      intro _
      cases ys with
      | nil => simp [listMax]
      | cons z zs =>
          rw [listMax_cons]
          rcases max_cases y (listMax (z :: zs)) with ⟨he, _⟩ | ⟨he, _⟩
          · rw [he]; exact List.mem_cons_self _ _
          · rw [he]; exact List.mem_cons_of_mem _ (ih (List.cons_ne_nil z zs))

theorem listMin_pos {l : List Int} (hl : l ≠ []) (hpos : ∀ x ∈ l, 0 < x) :
    0 < listMin l :=
  hpos _ (listMin_mem hl)

theorem listMax_pos {l : List Int} (hl : l ≠ []) (hpos : ∀ x ∈ l, 0 < x) :
    0 < listMax l :=
  hpos _ (listMax_mem hl)

theorem succRTTs_cons_true {r : PingResult} (hr : r.Success = true) (l : List PingResult) :
    succRTTs (r :: l) = r.RTT :: succRTTs l := by
  simp [succRTTs, List.filter_cons, hr]

theorem succRTTs_cons_false {r : PingResult} (hr : r.Success = false) (l : List PingResult) :
    succRTTs (r :: l) = succRTTs l := by
  simp [succRTTs, List.filter_cons, hr]

theorem succRTTs_pos {l : List PingResult}
    (hpos : ∀ r ∈ l, r.Success = true → 0 < r.RTT) :
    ∀ x ∈ succRTTs l, 0 < x := by
  intro x hx
  simp only [succRTTs, List.mem_map, List.mem_filter] at hx
  obtain ⟨r, ⟨hrl, hrs⟩, hrtt⟩ := hx
  subst hrtt
  exact hpos r hrl hrs

/-- Invariant carried through the statistics loop of `PrintResults`: after
seeing the successful RTTs `seen` (all positive), the counter equals their
number, `total` their exact sum (no wrap happened), and `min` / `max` are
the true minimum / maximum — positive, hence never confused with the `0`
sentinel — or both `0` when nothing succeeded yet. -/
def StatsInv (seen : List Int) (st : PingStats) : Prop :=
  st.successCount = (seen.length : Int) ∧
  st.total = seen.sum ∧
  0 ≤ st.total ∧
  (∀ x ∈ seen, 0 < x) ∧
  (seen = [] → st.min = 0 ∧ st.max = 0) ∧
  (seen ≠ [] → st.min = listMin seen ∧ st.max = listMax seen ∧ 0 < st.min ∧ 0 < st.max)

theorem statsStep_true {st : PingStats} {r : PingResult} (hr : r.Success = true) :
    statsStep st r =
      { successCount := st.successCount + 1
        min := if st.min = 0 ∨ r.RTT < st.min then r.RTT else st.min
        max := if st.max = 0 ∨ st.max < r.RTT then r.RTT else st.max
        total := wrap64 (st.total + r.RTT) } := by
  simp [statsStep, hr]

theorem statsStep_false {st : PingStats} {r : PingResult} (hr : r.Success = false) :
    statsStep st r = st := by
  simp [statsStep, hr]

theorem statsLoop_inv :
    ∀ (l : List PingResult) (st : PingStats) (seen : List Int),
      (∀ r ∈ l, r.Success = true → 0 < r.RTT) →
      st.total + (succRTTs l).sum < 2 ^ 63 →
      StatsInv seen st →
      StatsInv (seen ++ succRTTs l) (l.foldl statsStep st) := by
  intro l
  induction l with
  | nil =>
      intro st seen _ _ hinv
      simpa [succRTTs] using hinv
  | cons r rest ih =>
      intro st seen hpos hsum hinv
      obtain ⟨hcount, htotal, htotal0, hseenpos, hnil, hne⟩ := hinv
      cases hr : r.Success with
      | false =>
          rw [List.foldl_cons, statsStep_false hr, succRTTs_cons_false hr]
          rw [succRTTs_cons_false hr] at hsum
          exact ih st seen (fun q hq => hpos q (List.mem_cons_of_mem _ hq)) hsum
            ⟨hcount, htotal, htotal0, hseenpos, hnil, hne⟩
      | true =>
          have hrtt : 0 < r.RTT := hpos r (List.mem_cons_self _ _) hr
          rw [succRTTs_cons_true hr] at hsum ⊢
          rw [List.sum_cons] at hsum
          have hrestpos : ∀ x ∈ succRTTs rest, 0 < x :=
            succRTTs_pos (fun q hq => hpos q (List.mem_cons_of_mem _ hq))
          have hrestsum : 0 ≤ (succRTTs rest).sum :=
            List.sum_nonneg (fun x hx => le_of_lt (hrestpos x hx))
          have hwrap : wrap64 (st.total + r.RTT) = st.total + r.RTT :=
            wrap64_eq_of_range (by omega) (by omega)
          have hstepinv : StatsInv (seen ++ [r.RTT]) (statsStep st r) := by
            rw [statsStep_true hr]
            refine ⟨?_, ?_, ?_, ?_, ?_, ?_⟩
            · show st.successCount + 1 = ((seen ++ [r.RTT]).length : Int)
              rw [hcount, List.length_append, List.length_singleton]
              push_cast
              ring
            · show wrap64 (st.total + r.RTT) = (seen ++ [r.RTT]).sum
              rw [hwrap, htotal, List.sum_append, List.sum_singleton]
            · show 0 ≤ wrap64 (st.total + r.RTT)
              rw [hwrap]
              omega
            · intro x hx
              rcases List.mem_append.mp hx with h | h
              · exact hseenpos x h
              · rw [List.mem_singleton.mp h]; exact hrtt
            · intro hcontra
              exact absurd hcontra (by simp)
            · intro _
              by_cases hseen : seen = []
              · obtain ⟨hm0, hx0⟩ := hnil hseen
                subst hseen
                refine ⟨?_, ?_, ?_, ?_⟩
                · show (if st.min = 0 ∨ r.RTT < st.min then r.RTT else st.min)
                    = listMin ([] ++ [r.RTT])
                  rw [if_pos (Or.inl hm0)]
                  rfl
                · show (if st.max = 0 ∨ st.max < r.RTT then r.RTT else st.max)
                    = listMax ([] ++ [r.RTT])
                  rw [if_pos (Or.inl hx0)]
                  rfl
                · show 0 < (if st.min = 0 ∨ r.RTT < st.min then r.RTT else st.min)
                  rw [if_pos (Or.inl hm0)]
                  exact hrtt
                · show 0 < (if st.max = 0 ∨ st.max < r.RTT then r.RTT else st.max)
                  rw [if_pos (Or.inl hx0)]
                  exact hrtt
              · obtain ⟨hm, hx, hm0, hx0⟩ := hne hseen
                have hminapp := listMin_append_one seen hseen r.RTT
                have hmaxapp := listMax_append_one seen hseen r.RTT
                have hmin' : (if st.min = 0 ∨ r.RTT < st.min then r.RTT else st.min)
                    = min st.min r.RTT := by
                  rcases lt_trichotomy r.RTT st.min with hlt | heq | hgt
                  · rw [if_pos (Or.inr hlt), min_eq_right (le_of_lt hlt)]
                  · rw [heq, if_neg (by omega), min_self]
                  · rw [if_neg (by omega), min_eq_left (le_of_lt hgt)]
                have hmax' : (if st.max = 0 ∨ st.max < r.RTT then r.RTT else st.max)
                    = max st.max r.RTT := by
                  rcases lt_trichotomy st.max r.RTT with hlt | heq | hgt
                  · rw [if_pos (Or.inr hlt), max_eq_right (le_of_lt hlt)]
                  · rw [heq, if_neg (by omega), max_self]
                  · rw [if_neg (by omega), max_eq_left (le_of_lt hgt)]
                refine ⟨?_, ?_, ?_, ?_⟩
                · show (if st.min = 0 ∨ r.RTT < st.min then r.RTT else st.min)
                    = listMin (seen ++ [r.RTT])
                  rw [hmin', hm, hminapp]
                · show (if st.max = 0 ∨ st.max < r.RTT then r.RTT else st.max)
                    = listMax (seen ++ [r.RTT])
                  rw [hmax', hx, hmaxapp]
                · show 0 < (if st.min = 0 ∨ r.RTT < st.min then r.RTT else st.min)
                  rw [hmin']
                  exact lt_min hm0 hrtt
                · show 0 < (if st.max = 0 ∨ st.max < r.RTT then r.RTT else st.max)
                  rw [hmax']
                  exact lt_max_of_lt_right hrtt
          have htot' : (statsStep st r).total = st.total + r.RTT := by
            rw [statsStep_true hr, hwrap]
          have hsum' : (statsStep st r).total + (succRTTs rest).sum < 2 ^ 63 := by
            rw [htot']
            omega
          have hrec := ih (statsStep st r) (seen ++ [r.RTT])
            (fun q hq => hpos q (List.mem_cons_of_mem _ hq)) hsum' hstepinv
          rw [List.append_assoc] at hrec
          rw [List.foldl_cons]
          simpa using hrec

/-- What the statistics loop of `PrintResults` computes, for lists whose
successful RTTs are positive (the `0` min/max sentinel then never collides
with a data value) and whose successful RTTs sum below `2^63` (no int64
overflow): the counter is the number of successes, `total` their sum, and
`min`/`max` their true minimum/maximum (both `0` when nothing succeeded). -/
theorem computeStats_spec (results : List PingResult)
    (hpos : ∀ r ∈ results, r.Success = true → 0 < r.RTT)
    (hsum : (succRTTs results).sum < 2 ^ 63) :
    (computeStats results).successCount = ((succRTTs results).length : Int) ∧
    (computeStats results).total = (succRTTs results).sum ∧
    (succRTTs results = [] →
      (computeStats results).min = 0 ∧ (computeStats results).max = 0) ∧
    (succRTTs results ≠ [] →
      (computeStats results).min = listMin (succRTTs results) ∧
      (computeStats results).max = listMax (succRTTs results)) := by
  have hinv := statsLoop_inv results { successCount := 0, min := 0, max := 0, total := 0 } []
    hpos (by simpa using hsum)
    ⟨rfl, rfl, le_refl 0, by intro x hx; exact absurd hx (List.not_mem_nil x),
      fun _ => ⟨rfl, rfl⟩, fun h => absurd rfl h⟩
  rw [List.nil_append] at hinv
  obtain ⟨h1, h2, _, _, h5, h6⟩ := hinv
  exact ⟨h1, h2, h5, fun h => ⟨(h6 h).1, (h6 h).2.1⟩⟩

theorem length_mul_listMin_le_sum :
    ∀ {l : List Int}, l ≠ [] → (l.length : Int) * listMin l ≤ l.sum := by
  intro l
  induction l with
  | nil => intro h; exact absurd rfl h
  | cons y ys ih =>
      intro _
      cases hys : ys with
      | nil => simp [listMin]
      | cons z zs =>
          rw [← hys]
          have hysne : ys ≠ [] := by rw [hys]; exact List.cons_ne_nil z zs
          have hmain := ih hysne
          have h1 : listMin (y :: ys) ≤ y := listMin_le_mem y (List.mem_cons_self _ _)
          have h2 : listMin (y :: ys) ≤ listMin ys := by
            rw [hys, listMin_cons, ← hys]
            exact min_le_right _ _
          have h3 : (ys.length : Int) * listMin (y :: ys) ≤ (ys.length : Int) * listMin ys :=
            mul_le_mul_of_nonneg_left h2 (by positivity)
          rw [List.sum_cons, List.length_cons]
          push_cast
          nlinarith [h3, hmain]

theorem sum_le_length_mul_listMax :
    ∀ {l : List Int}, l ≠ [] → l.sum ≤ (l.length : Int) * listMax l := by
  intro l
  induction l with
  | nil => intro h; exact absurd rfl h
  | cons y ys ih =>
      intro _
      cases hys : ys with
      | nil => simp [listMax]
      | cons z zs =>
          rw [← hys]
          have hysne : ys ≠ [] := by rw [hys]; exact List.cons_ne_nil z zs
          have hmain := ih hysne
          have h1 : y ≤ listMax (y :: ys) := mem_le_listMax y (List.mem_cons_self _ _)
          have h2 : listMax ys ≤ listMax (y :: ys) := by
            rw [hys, listMax_cons, ← hys]
            exact le_max_right _ _
          have h3 : (ys.length : Int) * listMax ys ≤ (ys.length : Int) * listMax (y :: ys) :=
            mul_le_mul_of_nonneg_left h2 (by positivity)
          rw [List.sum_cons, List.length_cons]
          push_cast
          nlinarith [h3, hmain]

/-- An `ok` return of `Ping` implies the setup succeeded and the loop
returned that list. -/
theorem Ping_ok_loop {cfg : PingConfig} {env : IcmpEnv} {res : List PingResult}
    (h : Ping cfg env = .ok res) :
    env.resolveOk = true ∧ env.listenOk = true ∧
      pingLoop (fun s => icmpStep env.pid cfg.PacketSize (env.attempt s) s)
        (seqList cfg.Count) = .ok res := by
  cases h1 : env.resolveOk with
  | false => simp [Ping, h1] at h
  | true =>
      cases h2 : env.listenOk with
      | false => simp [Ping, h1, h2] at h
      | true => exact ⟨rfl, rfl, by simpa [Ping, h1, h2] using h⟩

/-- An `ok` return of `PingUDP` implies the setup succeeded and the loop
returned that list. -/
theorem PingUDP_ok_loop {cfg : PingConfig} {env : UdpEnv} {res : List PingResult}
    (h : PingUDP cfg env = .ok res) :
    env.resolveOk = true ∧ env.dialOk = true ∧
      pingLoop (fun s => udpStep env.pid cfg.PacketSize (env.attempt s) s)
        (seqList cfg.Count) = .ok res := by
  cases h1 : env.resolveOk with
  | false => simp [PingUDP, h1] at h
  | true =>
      cases h2 : env.dialOk with
      | false => simp [PingUDP, h1, h2] at h
      | true => exact ⟨rfl, rfl, by simpa [PingUDP, h1, h2] using h⟩

theorem seqList_length (count : Int) : (seqList count).length = count.toNat := by
  show ((List.range count.toNat).map (fun (i : Nat) => (i : Int) + 1)).length = count.toNat
  rw [List.length_map, List.length_range]

/-- C1: for every valid configuration (`0 ≤ Count`), whenever `Ping`
(resp. `PingUDP`) returns a result list, that list has length exactly
`Count` and its `SequenceNumber` fields are exactly `1, 2, ..., Count` in
order — no gaps, no duplicates — regardless of which attempts failed. -/
theorem claim_C1 (cfg : PingConfig) (envI : IcmpEnv) (envU : UdpEnv)
    (resI resU : List PingResult)
    (hc : 0 ≤ cfg.Count)
    (hI : Ping cfg envI = .ok resI)
    (hU : PingUDP cfg envU = .ok resU) :
    ((resI.length : Int) = cfg.Count ∧
      resI.map (fun r => r.SequenceNumber)
        = (List.range cfg.Count.toNat).map (fun (i : Nat) => (i : Int) + 1)) ∧
    ((resU.length : Int) = cfg.Count ∧
      resU.map (fun r => r.SequenceNumber)
        = (List.range cfg.Count.toNat).map (fun (i : Nat) => (i : Int) + 1)) := by
  obtain ⟨-, -, hIloop⟩ := Ping_ok_loop hI
  obtain ⟨-, -, hUloop⟩ := PingUDP_ok_loop hU
  have hf2I := pingLoop_ok_forall2 _ _ _ hIloop
  have hf2U := pingLoop_ok_forall2 _ _ _ hUloop
  have hlenI := hf2I.length_eq
  have hlenU := hf2U.length_eq
  rw [seqList_length] at hlenI hlenU
  have hmapI := forall2_map_seq (hf2I.imp (fun s r h => icmpStep_ok_seqNum h))
  have hmapU := forall2_map_seq (hf2U.imp (fun s r h => udpStep_ok_seqNum h))
  refine ⟨⟨?_, ?_⟩, ⟨?_, ?_⟩⟩
  · rw [← hlenI, Int.toNat_of_nonneg hc]
  · rw [hmapI]; rfl
  · rw [← hlenU, Int.toNat_of_nonneg hc]
  · rw [hmapU]; rfl

/-- Concrete configuration used by witnesses: count 2, otherwise the
defaults. -/
def cfgW1 : PingConfig :=
  { Host := "8.8.8.8", PacketSize := 64, Count := 2, Timeout := 2000000000
    IntervalMS := 1000000000, UDPPort := 33434 }

/-- Concrete ICMP environment: attempt 1 gets a well-formed echo reply,
attempt 2 times out. -/
def envW1I : IcmpEnv :=
  { resolveOk := true, listenOk := true, pid := 4242
    attempt := fun s =>
      if s = 1 then
        { marshalOk := true, sendOk := true, deadlineOk := true
          recv := .reply { typ := 0, id := 4242, seq := 1 }, rtt := 10, src := "8.8.8.8" }
      else
        { marshalOk := true, sendOk := true, deadlineOk := true
          recv := .failure, rtt := 0, src := "" } }

/-- Concrete UDP environment: attempt 1 gets a matching datagram, attempt 2
times out. -/
def envW1U : UdpEnv :=
  { resolveOk := true, dialOk := true, pid := 4242
    attempt := fun s =>
      if s = 1 then
        { sendOk := true, deadlineOk := true, recv := .datagram 4242 1 "8.8.8.8", rtt := 12 }
      else
        { sendOk := true, deadlineOk := true, recv := .failure, rtt := 0 } }

/-- The results of the concrete ICMP run under `envW1I`. -/
def resW1I : List PingResult :=
  [ { SequenceNumber := 1, RTT := 10, Success := true, From := "8.8.8.8" }
  , { SequenceNumber := 2, RTT := 0, Success := false, From := "" } ]

/-- The results of the concrete UDP run under `envW1U`. -/
def resW1U : List PingResult :=
  [ { SequenceNumber := 1, RTT := 12, Success := true, From := "8.8.8.8" }
  , { SequenceNumber := 2, RTT := 0, Success := false, From := "" } ]

/-- Witness for C1 at a concrete run of two attempts in which the second
attempt fails: both protocols still return two results with sequence
numbers `[1, 2]`. -/
theorem claim_C1_witness :
    (((resW1I.length : Int) = cfgW1.Count ∧
      resW1I.map (fun r => r.SequenceNumber)
        = (List.range cfgW1.Count.toNat).map (fun (i : Nat) => (i : Int) + 1)) ∧
     ((resW1U.length : Int) = cfgW1.Count ∧
      resW1U.map (fun r => r.SequenceNumber)
        = (List.range cfgW1.Count.toNat).map (fun (i : Nat) => (i : Int) + 1))) :=
  claim_C1 cfgW1 envW1I envW1U resW1I resW1U (by decide) rfl rfl

/-- An ICMP attempt with no fatal cause (size non-negative, `Marshal` ok,
and `SetReadDeadline` ok whenever the send succeeds) yields a result. -/
theorem icmpStep_total {p sz : Int} {a : IcmpAttemptEnv} {s : Int}
    (hsz : ¬ sz < 0) (hm : a.marshalOk = true)
    (hsd : a.sendOk = true → a.deadlineOk = true) :
    ∃ r, icmpStep p sz a s = .ok r := by
  cases hs : a.sendOk with
  | false =>
      exact ⟨{ SequenceNumber := s, RTT := 0, Success := false, From := "" },
        by simp [icmpStep, hsz, hm, hs]⟩
  | true =>
      have hd := hsd hs
      cases hr : a.recv with
      | failure =>
          exact ⟨{ SequenceNumber := s, RTT := 0, Success := false, From := "" },
            by simp [icmpStep, hsz, hm, hs, hd, hr]⟩
      | malformed =>
          exact ⟨{ SequenceNumber := s, RTT := 0, Success := false, From := "" },
            by simp [icmpStep, hsz, hm, hs, hd, hr]⟩
      | reply rep =>
          by_cases ht : rep.typ = ICMPTypeEchoReply
          · exact ⟨{ SequenceNumber := s, RTT := a.rtt, Success := true, From := a.src },
              by simp [icmpStep, hsz, hm, hs, hd, hr, ht]⟩
          · exact ⟨{ SequenceNumber := s, RTT := 0, Success := false, From := "" },
              by simp [icmpStep, hsz, hm, hs, hd, hr, ht]⟩

/-- An ICMP attempt with a fatal cause (negative size, `Marshal` failure, or
a `SetReadDeadline` failure reached after a successful send) yields no
result. -/
theorem icmpStep_fatal {p sz : Int} {a : IcmpAttemptEnv} {s : Int}
    (h : sz < 0 ∨ a.marshalOk = false ∨ (a.sendOk = true ∧ a.deadlineOk = false))
    (r : PingResult) : icmpStep p sz a s ≠ .ok r := by
  intro hok
  by_cases hsz : sz < 0
  · simp [icmpStep, hsz] at hok
  · rcases h with h | h | ⟨h1, h2⟩
    · exact hsz h
    · simp [icmpStep, hsz, h] at hok
    · simp [icmpStep, hsz, h1, h2] at hok
      cases hm : a.marshalOk with
      | false => simp [hm] at hok
      | true => simp [hm] at hok

/-- Counterexample input for C2: one attempt whose send succeeds and whose
`SetReadDeadline` then fails. -/
def envC2 : IcmpEnv :=
  { resolveOk := true, listenOk := true, pid := 4242
    attempt := fun _ =>
      { marshalOk := true, sendOk := true, deadlineOk := false
        recv := .failure, rtt := 0, src := "" } }

/-- Counterexample to C2 as stated: with resolution and transport-open both
succeeding — so no setup failure — and with the probe of attempt 1 already
sent, the `SetReadDeadline` failure of pinger.go lines 140-143 still
surfaces as a non-nil top-level error.  The error is therefore not
restricted to setup failures that occur before any probe attempt. -/
theorem claim_C2_counterexample :
    envC2.resolveOk = true ∧ envC2.listenOk = true ∧
    (envC2.attempt 1).sendOk = true ∧
    Ping { Host := "8.8.8.8", PacketSize := 64, Count := 1, Timeout := 2000000000
           IntervalMS := 1000000000, UDPPort := 33434 } envC2
      = .error (.msg "set deadline error") :=
  ⟨rfl, rfl, rfl, rfl⟩

/-- C2 amended: `Ping` returns a non-nil error exactly when resolution
fails, the transport open fails, or some attempt in range hits a fatal
cause — a negative packet size (runtime panic), a `Marshal` failure, or a
`SetReadDeadline` failure after a successful send.  The latter can happen
mid-run, after probes were already sent; all other per-attempt failures
(send error, timeout/read error, malformed reply, non-echo-reply type) are
recorded as failed results and never surface as an error.  When an error is
returned it is returned alone — the `Except` carries no partial results,
matching Go's `return nil, err`. -/
theorem claim_C2_amended (cfg : PingConfig) (env : IcmpEnv) :
    (∃ e, Ping cfg env = .error e) ↔
      (env.resolveOk = false ∨ env.listenOk = false ∨
        ∃ s ∈ seqList cfg.Count,
          cfg.PacketSize < 0 ∨ (env.attempt s).marshalOk = false ∨
            ((env.attempt s).sendOk = true ∧ (env.attempt s).deadlineOk = false)) := by
  constructor
  · intro ⟨e, he⟩
    by_contra hcon
    push_neg at hcon
    obtain ⟨hres, hlis, hall⟩ := hcon
    have hres' : env.resolveOk = true := by
      cases h : env.resolveOk with
      | false => exact absurd h hres
      | true => rfl
    have hlis' : env.listenOk = true := by
      cases h : env.listenOk with
      | false => exact absurd h hlis
      | true => rfl
    have htot : ∀ s ∈ seqList cfg.Count,
        ∃ r, icmpStep env.pid cfg.PacketSize (env.attempt s) s = .ok r := by
      intro s hs
      obtain ⟨h1, h2, h3⟩ := hall s hs
      refine icmpStep_total (Int.not_lt.mpr h1) ?_ ?_
      · cases h : (env.attempt s).marshalOk with
        | false => exact absurd h h2
        | true => rfl
      · intro hsend
        cases h : (env.attempt s).deadlineOk with
        | false => exact absurd h (h3 hsend)
        | true => rfl
    obtain ⟨res, hres2⟩ := pingLoop_ok_of_forall _ _ htot
    have : Ping cfg env = .ok res := by
      simp only [Ping, hres', hlis', Bool.not_true, Bool.false_eq_true, if_false, ite_false]
      exact hres2
    rw [this] at he
    exact Except.noConfusion he
  · intro h
    cases hP : Ping cfg env with
    | error e => exact ⟨e, rfl⟩
    | ok res =>
        exfalso
        obtain ⟨hres, hlis, hloop⟩ := Ping_ok_loop hP
        rcases h with h | h | ⟨s, hs, hfatal⟩
        · rw [hres] at h; exact Bool.noConfusion h
        · rw [hlis] at h; exact Bool.noConfusion h
        · have hf2 := pingLoop_ok_forall2 _ _ _ hloop
          obtain ⟨r, -, hr⟩ := forall2_mem_left hf2 s hs
          exact icmpStep_fatal hfatal r hr

/-- Counterexample input for C3: a datagram arrives before the deadline but
its first two bytes decode to 7, not the sender's pid 4242. -/
def envC3 : UdpEnv :=
  { resolveOk := true, dialOk := true, pid := 4242
    attempt := fun _ =>
      { sendOk := true, deadlineOk := true, recv := .datagram 7 1 "9.9.9.9", rtt := 5 } }

/-- Counterexample to C3 as stated: a response datagram was received before
the per-attempt deadline, yet the attempt is recorded as a failure because
pinger.go lines 241-256 compare the first four bytes of the reply against
the pid and the sequence number — content IS validated. -/
theorem claim_C3_counterexample :
    (envC3.attempt 1).recv = .datagram 7 1 "9.9.9.9" ∧
    PingUDP { Host := "8.8.8.8", PacketSize := 64, Count := 1, Timeout := 2000000000
              IntervalMS := 1000000000, UDPPort := 33434 } envC3
      = .ok [{ SequenceNumber := 1, RTT := 0, Success := false, From := "" }] :=
  ⟨rfl, rfl⟩

/-- C3 amended: in the UDP variant an attempt is recorded as a success
exactly when the send and deadline-set succeed and a datagram is received
before the deadline whose first four bytes decode (big-endian, two fields)
to the sender's masked pid and the attempt's sequence number; a datagram
failing that comparison is recorded as a failure.  On success the RTT is
the observed elapsed time. -/
theorem claim_C3_amended (cfg : PingConfig) (env : UdpEnv) (res : List PingResult)
    (h : PingUDP cfg env = .ok res) :
    ∀ r ∈ res,
      (r.Success = true ↔
        (env.attempt r.SequenceNumber).sendOk = true ∧
        (env.attempt r.SequenceNumber).deadlineOk = true ∧
        ∃ src, (env.attempt r.SequenceNumber).recv
          = .datagram (env.pid % 65536) r.SequenceNumber src) ∧
      (r.Success = true → r.RTT = (env.attempt r.SequenceNumber).rtt) := by
  intro r hr
  obtain ⟨-, -, hloop⟩ := PingUDP_ok_loop h
  have hf2 := pingLoop_ok_forall2 _ _ _ hloop
  obtain ⟨s, -, hstep⟩ := forall2_mem_right hf2 r hr
  have hseq := udpStep_ok_seqNum hstep
  rw [hseq]
  exact udpStep_ok_success hstep

/-- Witness environment for C3: every attempt receives a datagram echoing
the pid and sequence number. -/
def envC3w : UdpEnv :=
  { resolveOk := true, dialOk := true, pid := 4242
    attempt := fun s =>
      { sendOk := true, deadlineOk := true, recv := .datagram 4242 s "7.7.7.7", rtt := 9 } }

/-- The single result of the witness run for C3. -/
def resC3w : PingResult :=
  { SequenceNumber := 1, RTT := 9, Success := true, From := "7.7.7.7" }

/-- Witness for C3 (amended) at a concrete one-attempt run whose reply
matches pid and sequence number. -/
theorem claim_C3_witness :
    (resC3w.Success = true ↔
      (envC3w.attempt 1).sendOk = true ∧
      (envC3w.attempt 1).deadlineOk = true ∧
      ∃ src, (envC3w.attempt 1).recv = .datagram (envC3w.pid % 65536) 1 src) ∧
    (resC3w.Success = true → resC3w.RTT = (envC3w.attempt 1).rtt) :=
  claim_C3_amended
    { Host := "8.8.8.8", PacketSize := 64, Count := 1, Timeout := 2000000000
      IntervalMS := 1000000000, UDPPort := 33434 }
    envC3w [resC3w] rfl resC3w (List.mem_singleton.mpr rfl)

/-- Counterexample input for C4: the reply parses as an echo reply
(type 0) but carries identifier 999 and sequence 777, neither of which
matches the request (identifier 4242, sequence 1). -/
def envC4 : IcmpEnv :=
  { resolveOk := true, listenOk := true, pid := 4242
    attempt := fun _ =>
      { marshalOk := true, sendOk := true, deadlineOk := true
        recv := .reply { typ := 0, id := 999, seq := 777 }, rtt := 10, src := "8.8.8.8" } }

/-- Counterexample to C4 as stated: the echo request of attempt 1 carries
identifier 4242 and sequence 1, the parsed reply carries identifier 999 and
sequence 777 — no match — and yet the attempt is recorded as a success,
because pinger.go lines 160-179 switch on `rm.Type` only and never compare
the reply's identifier or sequence number. -/
theorem claim_C4_counterexample :
    (icmpEcho envC4.pid 64 1).id = 4242 ∧ (icmpEcho envC4.pid 64 1).seq = 1 ∧
    (envC4.attempt 1).recv = .reply { typ := 0, id := 999, seq := 777 } ∧
    Ping { Host := "8.8.8.8", PacketSize := 64, Count := 1, Timeout := 2000000000
           IntervalMS := 1000000000, UDPPort := 33434 } envC4
      = .ok [{ SequenceNumber := 1, RTT := 10, Success := true, From := "8.8.8.8" }] :=
  ⟨rfl, rfl, rfl, rfl⟩

/-- C4 amended: in the ICMP variant a received packet is recorded as a
success exactly when it parses and its ICMP type is echo-reply; the reply's
identifier and sequence number are NOT checked against the request.  On
success the RTT is the observed elapsed time and `From` the reply source. -/
theorem claim_C4_amended (cfg : PingConfig) (env : IcmpEnv) (res : List PingResult)
    (h : Ping cfg env = .ok res) :
    ∀ r ∈ res,
      (r.Success = true ↔
        (env.attempt r.SequenceNumber).sendOk = true ∧
        (env.attempt r.SequenceNumber).deadlineOk = true ∧
        ∃ rep, (env.attempt r.SequenceNumber).recv = .reply rep ∧
          rep.typ = ICMPTypeEchoReply) ∧
      (r.Success = true → r.RTT = (env.attempt r.SequenceNumber).rtt ∧
        r.From = (env.attempt r.SequenceNumber).src) := by
  intro r hr
  obtain ⟨-, -, hloop⟩ := Ping_ok_loop h
  have hf2 := pingLoop_ok_forall2 _ _ _ hloop
  obtain ⟨s, -, hstep⟩ := forall2_mem_right hf2 r hr
  have hseq := icmpStep_ok_seqNum hstep
  rw [hseq]
  exact icmpStep_ok_success hstep

/-- Witness environment for C4: the reply is an echo reply whose identifier
and sequence match the request (though the code would accept any). -/
def envC4w : IcmpEnv :=
  { resolveOk := true, listenOk := true, pid := 77
    attempt := fun s =>
      { marshalOk := true, sendOk := true, deadlineOk := true
        recv := .reply { typ := 0, id := 77, seq := s }, rtt := 21, src := "1.1.1.1" } }

/-- The single result of the witness run for C4. -/
def resC4w : PingResult :=
  { SequenceNumber := 1, RTT := 21, Success := true, From := "1.1.1.1" }

/-- Witness for C4 (amended) at a concrete one-attempt run. -/
theorem claim_C4_witness :
    (resC4w.Success = true ↔
      (envC4w.attempt 1).sendOk = true ∧
      (envC4w.attempt 1).deadlineOk = true ∧
      ∃ rep, (envC4w.attempt 1).recv = .reply rep ∧ rep.typ = ICMPTypeEchoReply) ∧
    (resC4w.Success = true → resC4w.RTT = (envC4w.attempt 1).rtt ∧
      resC4w.From = (envC4w.attempt 1).src) :=
  claim_C4_amended
    { Host := "8.8.8.8", PacketSize := 64, Count := 1, Timeout := 2000000000
      IntervalMS := 1000000000, UDPPort := 33434 }
    envC4w [resC4w] rfl resC4w (List.mem_singleton.mpr rfl)

/-- Counterexample configuration for C5: negative count and non-positive
timeout. -/
def cfgC5 : PingConfig :=
  { Host := "8.8.8.8", PacketSize := 64, Count := -1, Timeout := 0
    IntervalMS := 1000000000, UDPPort := 33434 }

/-- A benign environment for the C5 counterexample. -/
def envC5 : IcmpEnv :=
  { resolveOk := true, listenOk := true, pid := 4242
    attempt := fun _ =>
      { marshalOk := true, sendOk := true, deadlineOk := true
        recv := .failure, rtt := 0, src := "" } }

/-- Counterexample to C5 as stated: a configuration with negative count and
non-positive timeout is built by `NewPinger` without complaint and accepted
by `Ping`, which returns `ok []` — no invalid-configuration error is ever
produced; neither pinger.go lines 38-54 nor lines 88-103 contain any
validation. -/
theorem claim_C5_counterexample :
    cfgC5.Count < 0 ∧ cfgC5.Timeout ≤ 0 ∧
    NewPinger "8.8.8.8" [WithCount (-1), WithTimeout 0] = cfgC5 ∧
    Ping cfgC5 envC5 = .ok [] :=
  ⟨by decide, by decide, rfl, rfl⟩

/-- C5 amended: no validation is performed anywhere.  A non-positive count
makes `Ping` return an empty list with a nil error (the loop body never
runs, so no probing happens — but by accident of the loop bounds, not by
rejection); a negative packet size is not rejected either: the first
attempt's `make([]byte, PacketSize)` panics at runtime instead of producing
an invalid-configuration error; a non-positive timeout is passed through
unchecked. -/
theorem claim_C5_amended (cfg : PingConfig) (env : IcmpEnv) :
    (cfg.Count ≤ 0 → env.resolveOk = true → env.listenOk = true →
      Ping cfg env = .ok []) ∧
    (cfg.PacketSize < 0 → 1 ≤ cfg.Count → env.resolveOk = true → env.listenOk = true →
      Ping cfg env = .error (.panic "makeslice: len out of range")) := by
  constructor
  · intro hc hres hlis
    have hnil : seqList cfg.Count = [] := by
      simp only [seqList]
      rw [Int.toNat_of_nonpos hc]
      rfl
    simp only [Ping, hres, hlis, Bool.not_true, Bool.false_eq_true, if_false, ite_false,
      hnil, pingLoop]
  · intro hps hc hres hlis
    obtain ⟨k, hk⟩ : ∃ k, cfg.Count.toNat = k + 1 := ⟨cfg.Count.toNat - 1, by omega⟩
    obtain ⟨rest, hrest⟩ : ∃ rest, seqList cfg.Count = 1 :: rest := by
      simp only [seqList]
      rw [hk, List.range_succ_eq_map, List.map_cons]
      exact ⟨_, rfl⟩
    have hf : icmpStep env.pid cfg.PacketSize (env.attempt 1) 1
        = .error (.panic "makeslice: len out of range") := by
      simp [icmpStep, hps]
    simp only [Ping, hres, hlis, Bool.not_true, Bool.false_eq_true, if_false, ite_false,
      hrest, pingLoop, hf]

/-- Configuration with count 0 for the C5 witness. -/
def cfgC5w1 : PingConfig :=
  { Host := "8.8.8.8", PacketSize := 64, Count := 0, Timeout := 2000000000
    IntervalMS := 1000000000, UDPPort := 33434 }

/-- Configuration with a negative packet size for the C5 witness. -/
def cfgC5w2 : PingConfig :=
  { Host := "8.8.8.8", PacketSize := -1, Count := 1, Timeout := 2000000000
    IntervalMS := 1000000000, UDPPort := 33434 }

/-- Witness for C5 (amended): with count 0 the run returns `ok []`; with a
negative packet size it panics. -/
theorem claim_C5_witness :
    Ping cfgC5w1 envC5 = .ok [] ∧
    Ping cfgC5w2 envC5 = .error (.panic "makeslice: len out of range") :=
  ⟨(claim_C5_amended cfgC5w1 envC5).1 (by decide) rfl rfl,
   (claim_C5_amended cfgC5w2 envC5).2 (by decide) (by decide) rfl rfl⟩

/-- Counterexample to C6 as stated: on the empty result list the
packet-loss computation of pinger.go line 301 does divide by zero — its
denominator `float64(len(results))` is `0` and the division is performed
unguarded, yielding the IEEE `NaN` (modelled as `none`).  No crash occurs,
and the printed report is degenerate (`NaN% packet loss`), but the claim
that the computation never divides by zero is false. -/
theorem claim_C6_counterexample :
    ([] : List PingResult).length = 0 ∧ packetLoss [] = none :=
  ⟨rfl, rfl⟩

/-- C6 amended: for a non-empty result list the loss percentage is exactly
`(attempts − successes) / attempts × 100` with the attempt count as
denominator; for the empty list the code performs the floating-point
division `0/0` anyway, producing `NaN` (modelled `none`) — a degenerate
value, printed without crashing, since Go float division by zero does not
panic. -/
theorem claim_C6_amended (results : List PingResult) :
    (results.length ≠ 0 →
      packetLoss results
        = some ((((results.length : Int)
            - ((results.filter (fun r => r.Success)).length : Int)) : ℚ)
          / ((results.length : Int) : ℚ) * 100)) ∧
    (results.length = 0 → packetLoss results = none) := by
  have hc : (computeStats results).successCount
      = ((results.filter (fun r => r.Success)).length : Int) := by
    rw [computeStats, foldl_statsStep_successCount]
    exact zero_add _
  constructor
  · intro h
    rw [packetLoss, if_neg h, hc]
    push_cast
    ring_nf
  · intro h
    rw [packetLoss, if_pos h]

/-- Concrete list for the C6 witness: one success, one failure. -/
def resC6w : List PingResult :=
  [ { SequenceNumber := 1, RTT := 10, Success := true, From := "x" }
  , { SequenceNumber := 2, RTT := 0, Success := false, From := "" } ]

/-- Witness for C6 (amended) at a concrete two-element list: loss is
`(2 − 1) / 2 × 100`. -/
theorem claim_C6_witness :
    packetLoss resC6w
      = some ((((2 : Int) - ((1 : Int))) : ℚ) / ((2 : Int) : ℚ) * 100) :=
  (claim_C6_amended resC6w).1 (by decide)

/-- Counterexample list for C7: two successes, one with RTT `0`. -/
def resC7cex : List PingResult :=
  [ { SequenceNumber := 1, RTT := 0, Success := true, From := "a" }
  , { SequenceNumber := 2, RTT := 5, Success := true, From := "b" } ]

/-- Counterexample to C7 as stated: the successful RTTs are `[0, 5]`, whose
minimum is `0`, yet the statistics loop reports `min = 5`: the loop of
pinger.go lines 282-288 uses `min == 0` as an unset sentinel, so a
successful attempt whose RTT is `0` is indistinguishable from the initial
state and the next success overwrites it.  `min` is therefore not computed
over the successful attempts. -/
theorem claim_C7_counterexample :
    succRTTs resC7cex = [0, 5] ∧
    (0 : Int) ∈ succRTTs resC7cex ∧
    (computeStats resC7cex).min = 5 ∧
    ¬ ((computeStats resC7cex).min ≤ (0 : Int)) :=
  ⟨rfl, by decide, by decide, by decide⟩

/-- C7 amended: when every successful RTT is positive (so the `0`
sentinel of the min/max accumulators collides with no data value) and the
successful RTTs sum below `2^63` (no int64 overflow), `min` and `max` are
the true minimum and maximum over the successful attempts only, and `avg`
is their sum divided by their number with Go's toward-zero integer
division — the floor of the arithmetic mean on these non-negative values,
not the exact mean.  With zero successes the `rtt min/avg/max` line is
omitted (and the internal `avg` variable stays `0` but is never shown). -/
theorem claim_C7_amended (results : List PingResult)
    (hpos : ∀ r ∈ results, r.Success = true → 0 < r.RTT)
    (hsum : (succRTTs results).sum < 2 ^ 63) :
    (succRTTs results ≠ [] →
      (computeStats results).min = listMin (succRTTs results) ∧
      (computeStats results).max = listMax (succRTTs results) ∧
      avgRTT results = Int.tdiv (succRTTs results).sum ((succRTTs results).length : Int)) ∧
    (succRTTs results = [] → printsRttLine results = false ∧ avgRTT results = 0) := by
  obtain ⟨hcount, htotal, -, hne2⟩ := computeStats_spec results hpos hsum
  constructor
  · intro hne
    obtain ⟨hmin, hmax⟩ := hne2 hne
    refine ⟨hmin, hmax, ?_⟩
    have hlen : 0 < ((succRTTs results).length : Int) := by
      have : (succRTTs results).length ≠ 0 := fun h => hne (List.length_eq_zero.mp h)
      omega
    rw [avgRTT]
    simp only [hcount, htotal]
    rw [if_pos hlen]
  · intro hnil
    constructor
    · rw [printsRttLine]
      simp only [hcount, hnil, List.length_nil, Nat.cast_zero]
      decide
    · rw [avgRTT]
      simp only [hcount, hnil, List.length_nil, Nat.cast_zero]
      rw [if_neg (lt_irrefl 0)]

/-- Concrete list for the C7 witness: successful RTTs `[10, 20]` and one
failure. -/
def resC7w : List PingResult :=
  [ { SequenceNumber := 1, RTT := 10, Success := true, From := "x" }
  , { SequenceNumber := 2, RTT := 20, Success := true, From := "y" }
  , { SequenceNumber := 3, RTT := 0, Success := false, From := "" } ]

/-- Witness for C7 (amended) at a concrete list with successful RTTs
`[10, 20]`. -/
theorem claim_C7_witness :
    (computeStats resC7w).min = listMin (succRTTs resC7w) ∧
    (computeStats resC7w).max = listMax (succRTTs resC7w) ∧
    avgRTT resC7w = Int.tdiv (succRTTs resC7w).sum ((succRTTs resC7w).length : Int) :=
  (claim_C7_amended resC7w (by decide) (by decide)).1 (by decide)

/-- Counterexample list for C8: every attempt successful, one RTT `0`. -/
def resC8cex : List PingResult :=
  [ { SequenceNumber := 1, RTT := 0, Success := true, From := "" }
  , { SequenceNumber := 2, RTT := 5, Success := true, From := "" } ]

/-- Counterexample to C8 as stated: a non-empty all-success list for which
`min ≤ avg` fails — the `min == 0` sentinel of pinger.go line 282 makes the
reported minimum `5` while the truncated average of `[0, 5]` is `2`. -/
theorem claim_C8_counterexample :
    resC8cex ≠ [] ∧
    resC8cex.all (fun r => r.Success) = true ∧
    (computeStats resC8cex).min = 5 ∧ avgRTT resC8cex = 2 ∧
    ¬ ((computeStats resC8cex).min ≤ avgRTT resC8cex) :=
  ⟨by decide, rfl, by decide, by decide, by decide⟩

/-- C8 amended: for every non-empty result list in which every attempt is
successful, with all RTTs positive and their sum below `2^63`, the loss is
`0%` and the reported statistics satisfy `min ≤ avg ≤ max`. -/
theorem claim_C8_amended (results : List PingResult)
    (hne : results ≠ [])
    (hall : ∀ r ∈ results, r.Success = true)
    (hpos : ∀ r ∈ results, 0 < r.RTT)
    (hsum : (succRTTs results).sum < 2 ^ 63) :
    packetLoss results = some 0 ∧
    (computeStats results).min ≤ avgRTT results ∧
    avgRTT results ≤ (computeStats results).max := by
  have hfilter : results.filter (fun r => r.Success) = results :=
    List.filter_eq_self.mpr (fun r hr => hall r hr)
  have hsucc : succRTTs results = results.map (fun r => r.RTT) := by
    rw [succRTTs, hfilter]
  have hLne : succRTTs results ≠ [] := by
    rw [hsucc]
    intro h
    exact hne (List.map_eq_nil.mp h)
  have hLpos : ∀ x ∈ succRTTs results, 0 < x :=
    succRTTs_pos (fun r hr _ => hpos r hr)
  obtain ⟨hcount, htotal, -, hne2⟩ :=
    computeStats_spec results (fun r hr _ => hpos r hr) hsum
  obtain ⟨hmin, hmax⟩ := hne2 hLne
  have hlenpos : 0 < (((succRTTs results).length : Int)) := by
    have : (succRTTs results).length ≠ 0 := fun h => hLne (List.length_eq_zero.mp h)
    omega
  have hsum0 : 0 ≤ (succRTTs results).sum :=
    List.sum_nonneg (fun x hx => le_of_lt (hLpos x hx))
  have havg : avgRTT results
      = Int.tdiv (succRTTs results).sum ((succRTTs results).length : Int) := by
    rw [avgRTT]
    simp only [hcount, htotal]
    rw [if_pos hlenpos]
  have htdiv : Int.tdiv (succRTTs results).sum ((succRTTs results).length : Int)
      = (succRTTs results).sum / ((succRTTs results).length : Int) :=
    Int.tdiv_eq_ediv hsum0 (le_of_lt hlenpos)
  refine ⟨?_, ?_, ?_⟩
  · have hlen0 : results.length ≠ 0 := fun h => hne (List.length_eq_zero.mp h)
    have hcount' : (computeStats results).successCount = (results.length : Int) := by
      rw [hcount, hsucc, List.length_map]
    rw [packetLoss, if_neg hlen0, hcount']
    norm_num
  · rw [havg, htdiv, hmin, Int.le_ediv_iff_mul_le hlenpos]
    have hbound := length_mul_listMin_le_sum hLne
    linarith
  · rw [havg, htdiv, hmax]
    apply Int.ediv_le_of_le_mul hlenpos
    have hbound := sum_le_length_mul_listMax hLne
    linarith

/-- Concrete all-success list for the C8 witness: RTTs `[10, 20]`. -/
def resC8w : List PingResult :=
  [ { SequenceNumber := 1, RTT := 10, Success := true, From := "x" }
  , { SequenceNumber := 2, RTT := 20, Success := true, From := "y" } ]

/-- Witness for C8 (amended) at a concrete all-success list. -/
theorem claim_C8_witness :
    packetLoss resC8w = some 0 ∧
    (computeStats resC8w).min ≤ avgRTT resC8w ∧
    avgRTT resC8w ≤ (computeStats resC8w).max :=
  claim_C8_amended resC8w (by decide) (by decide) (by decide) (by decide)

/-- C9: for every sequence number `s` in `1 .. Count` and non-negative
packet size, the data payload of the echo request built at pinger.go lines
106-119 has exactly `PacketSize` bytes and is the constant byte `s % 256` —
Go's `byte(seq)` — throughout. -/
theorem claim_C9 (pid size s count : Int)
    (hsize : 0 ≤ size) (hs1 : 1 ≤ s) (hs2 : s ≤ count) :
    (((icmpEcho pid size s).data.length : Int) = size) ∧
    (icmpEcho pid size s).data = List.replicate size.toNat (s % 256) := by
  have hdata : (icmpEcho pid size s).data = List.replicate size.toNat (s % 256) := by
    show icmpData size s = List.replicate size.toNat (s % 256)
    rw [icmpData, List.map_const', List.length_replicate]
  refine ⟨?_, hdata⟩
  rw [hdata, List.length_replicate, Int.toNat_of_nonneg hsize]

/-- Witness for C9 at pid 4242, packet size 64, sequence number 3 of 4: the
payload is 64 copies of the byte 3. -/
theorem claim_C9_witness :
    ((((icmpEcho 4242 64 3).data.length : Int) = 64)) ∧
    (icmpEcho 4242 64 3).data = List.replicate (64 : Int).toNat ((3 : Int) % 256) :=
  claim_C9 4242 64 3 4 (by decide) (by decide) (by decide)

/-- C10: `NewPinger` applies its options in order — appending one more
option means applying it to the result of the others, so the last writer of
a field wins — and with no options it returns exactly the defaults with the
supplied host; any field no supplied option touches keeps its default. -/
theorem claim_C10 (host : String) :
    (NewPinger host [] =
      { Host := host, PacketSize := 64, Count := 4, Timeout := 2000000000
        IntervalMS := 1000000000, UDPPort := 33434 }) ∧
    (∀ o₁ o₂ : List (PingConfig → PingConfig),
      NewPinger host (o₁ ++ o₂)
        = o₂.foldl (fun config option => option config) (NewPinger host o₁)) ∧
    (∀ (opts : List (PingConfig → PingConfig)) (n : Int),
      (NewPinger host (opts ++ [WithPacketSize n])).PacketSize = n ∧
      (NewPinger host (opts ++ [WithCount n])).Count = n ∧
      (NewPinger host (opts ++ [WithTimeout n])).Timeout = n ∧
      (NewPinger host (opts ++ [WithInterval n])).IntervalMS = n ∧
      (NewPinger host (opts ++ [WithUDPPort n])).UDPPort = n) ∧
    (∀ opts : List (PingConfig → PingConfig),
      ((∀ o ∈ opts, ∀ c, (o c).Host = c.Host) → (NewPinger host opts).Host = host) ∧
      ((∀ o ∈ opts, ∀ c, (o c).PacketSize = c.PacketSize) →
        (NewPinger host opts).PacketSize = 64) ∧
      ((∀ o ∈ opts, ∀ c, (o c).Count = c.Count) → (NewPinger host opts).Count = 4) ∧
      ((∀ o ∈ opts, ∀ c, (o c).Timeout = c.Timeout) →
        (NewPinger host opts).Timeout = 2000000000) ∧
      ((∀ o ∈ opts, ∀ c, (o c).IntervalMS = c.IntervalMS) →
        (NewPinger host opts).IntervalMS = 1000000000) ∧
      ((∀ o ∈ opts, ∀ c, (o c).UDPPort = c.UDPPort) →
        (NewPinger host opts).UDPPort = 33434)) := by
  have happend : ∀ o₁ o₂ : List (PingConfig → PingConfig),
      NewPinger host (o₁ ++ o₂)
        = o₂.foldl (fun config option => option config) (NewPinger host o₁) := by
    intro o₁ o₂
    rw [NewPinger, NewPinger, List.foldl_append]
  have hpreserve : ∀ {α : Type} (f : PingConfig → α) (init : PingConfig)
      (opts : List (PingConfig → PingConfig)),
      (∀ o ∈ opts, ∀ c, f (o c) = f c) →
      f (opts.foldl (fun config option => option config) init) = f init := by
    intro α f init opts
    induction opts generalizing init with
    | nil => intro _; rfl
    | cons o rest ih =>
        intro h
        rw [List.foldl_cons]
        rw [ih (o init) (fun q hq => h q (List.mem_cons_of_mem _ hq))]
        exact h o (List.mem_cons_self _ _) init
  refine ⟨rfl, happend, ?_, ?_⟩
  · intro opts n
    refine ⟨?_, ?_, ?_, ?_, ?_⟩
    all_goals rw [happend]
    all_goals rfl
  · intro opts
    exact ⟨fun h => hpreserve (fun c => c.Host) _ opts h,
      fun h => hpreserve (fun c => c.PacketSize) _ opts h,
      fun h => hpreserve (fun c => c.Count) _ opts h,
      fun h => hpreserve (fun c => c.Timeout) _ opts h,
      fun h => hpreserve (fun c => c.IntervalMS) _ opts h,
      fun h => hpreserve (fun c => c.UDPPort) _ opts h⟩

/-- Witness for C10: with the single option `WithCount 10` the count is
overridden (and `[WithCount 3, WithCount 10]` ends at 10 — last wins),
while the untouched packet size keeps its default 64. -/
theorem claim_C10_witness :
    ((NewPinger "h" ([WithCount 3] ++ [WithCount 10])).Count = 10) ∧
    ((NewPinger "h" [WithCount 10]).PacketSize = 64) :=
  ⟨((claim_C10 "h").2.2.1 [WithCount 3] 10).2.1,
   ((claim_C10 "h").2.2.2 [WithCount 10]).2.1
     (by
       intro o ho c
       rw [List.mem_singleton.mp ho]
       rfl)⟩

theorem ping_sanity :
    Ping (defaultPingConfig "h")
      { resolveOk := true, listenOk := true, pid := 4242
        attempt := fun _ =>
          { marshalOk := true, sendOk := true, deadlineOk := true
            recv := .reply { typ := 0, id := 4242, seq := 1 }, rtt := 10, src := "1.2.3.4" } }
      = .ok
        [ { SequenceNumber := 1, RTT := 10, Success := true, From := "1.2.3.4" }
        , { SequenceNumber := 2, RTT := 10, Success := true, From := "1.2.3.4" }
        , { SequenceNumber := 3, RTT := 10, Success := true, From := "1.2.3.4" }
        , { SequenceNumber := 4, RTT := 10, Success := true, From := "1.2.3.4" } ] := by
  rfl
